import Mathlib

/-
Verification of the multidimensional-knapsack allocation environment
(`MkpEnv` in `2023_08/_01_DQN_MKP/c_mkp_env.py`).

The environment keeps a mutable numpy matrix `_internal_state` of shape
`(num_items + 1, 2 + n_resources)`: row `i < num_items` is
`[selected_flag, value, demand_0, ..., demand_{R-1}]` for item `i`, and the
final row is `[0, value_allocated_so_far, remaining_capacity_0, ...]`.
We embed the matrix as `List (List Rat)` (numpy float64 entries are modelled
as exact rationals; the instance data is integer-valued so the arithmetic
performed by the environment is exact), mutation as functional update, and
Python exceptions (`assert`, `IndexError`) as an error-carrying outcome
type that also records the state as mutated up to the point the exception
was raised, since the Python object keeps those mutations.
-/

namespace MkpEnv

/-- `DoneReasonType` enum from the source. The string payloads of the Python
enum are, in order: "The Same Item Selected", "Resource Limit Exceeded",
"All Items Allocated Successfully", "An Unavailable Resource". -/
inductive DoneReasonType where
  | TYPE_FAIL_1
  | TYPE_FAIL_2
  | TYPE_SUCCESS_1
  | TYPE_SUCCESS_2
deriving DecidableEq, Repr

/-- The `env_config` dictionary read by `MkpEnv.__init__`. Numeric entries are
integers in the source; capacities are embedded as rationals because they are
stored into the float matrix. -/
structure MkpConfig where
  num_items : Nat
  n_resources : Nat
  initial_resources_capacity : List Rat
  lowest_item_resource_demand : List Int
  highest_item_resource_demand : List Int
  lowest_item_value : Int
  highest_item_value : Int
  use_static_item_resource_demand : Bool
  use_same_item_resource_demand : Bool
  state_normalization : Bool
deriving DecidableEq, Repr

/-- One sampled problem instance: `self._item_values` and
`self._item_resource_demand`. The numpy RNG draws of
`get_initial_internal_state` are abstracted by passing the drawn instance in
explicitly (a stream of instances models repeated re-sampling in `reset`). -/
structure MkpInstance where
  item_values : List Rat
  item_resource_demand : List (List Rat)
deriving DecidableEq, Repr

/-- Read matrix cell `(i, j)`; out-of-range reads default to `0` (the
well-formedness hypotheses of the theorems keep all meaningful reads in
range). -/
def cell (m : List (List Rat)) (i j : Nat) : Rat :=
  (m.getD i []).getD j 0

/-- `get_initial_internal_state`: zeros matrix, then
`state[:-1, 1] = values`, `state[:-1, 2:] = demands`,
`state[-1, 2:] = initial_resources_capacity`. -/
def get_initial_internal_state (cfg : MkpConfig) (inst : MkpInstance) :
    List (List Rat) :=
  ((List.range cfg.num_items).map fun i =>
    (0 : Rat) :: inst.item_values.getD i 0 ::
      ((List.range cfg.n_resources).map fun r =>
        (inst.item_resource_demand.getD i []).getD r 0))
  ++ [(0 : Rat) :: (0 : Rat) :: cfg.initial_resources_capacity]

/-- `self._total_value = state[:-1, 1].sum()` (sum of the value column over
the item rows). -/
def totalValueOf (cfg : MkpConfig) (inst : MkpInstance) : Rat :=
  ((List.range cfg.num_items).map fun i => inst.item_values.getD i 0).sum

/-- `_get_unavailable_items_indices`, membership view: item `i` is
unavailable iff its selected flag is `1.0` or some resource demand in its row
strictly exceeds the remaining capacity in the aggregate row. -/
def unavailableItem (cfg : MkpConfig) (m : List (List Rat)) (i : Nat) : Bool :=
  (cell m i 0 == (1 : Rat)) ||
    ((List.range cfg.n_resources).any fun r =>
      decide (cell m cfg.num_items (2 + r) < cell m i (2 + r)))

/-- `len(unavailable_items_indices) == num_items`: every item is unavailable. -/
def allUnavailable (cfg : MkpConfig) (m : List (List Rat)) : Bool :=
  (List.range cfg.num_items).all (unavailableItem cfg m)

/-- The mutable episode state of one `MkpEnv` object (the fields assigned in
`__init__`/`reset`/`step`). `resources_allocated` is a Python *list*: the
source's `self._resources_allocated += resources_step` on line 191 is list
concatenation, not element-wise addition, and is embedded as `List.append`. -/
structure EnvState where
  cfg : MkpConfig
  internal_state : List (List Rat)
  actions_selected : List Nat
  value_allocated : Rat
  resources_allocated : List Rat
  action_mask : List Rat
  reward : Option Rat
  total_value : Rat
deriving DecidableEq, Repr

/-- The body of `reset` up to (and excluding) the degenerate re-reset check:
fresh bookkeeping, the initial matrix for the given drawn instance, and the
action mask recomputed from it (zeros with the unavailable indices set to
`1.0`). `self._reward` is not assigned by `reset`; for a fresh environment it
is `None`. -/
def resetOnce (cfg : MkpConfig) (inst : MkpInstance) : EnvState :=
  let m := get_initial_internal_state cfg inst
  { cfg := cfg
    internal_state := m
    actions_selected := []
    value_allocated := 0
    resources_allocated := List.replicate cfg.n_resources 0
    action_mask :=
      (List.range cfg.num_items).map fun i =>
        if unavailableItem cfg m i then (1 : Rat) else 0
    reward := none
    total_value := totalValueOf cfg inst }

/-- `reset`: if the freshly built state has every item unavailable it calls
itself again (`observation, info = self.reset(**kwargs)`), drawing the next
instance; the recursion is unbounded in the source, so the embedding takes an
explicit recursion budget, `none` meaning the budget was exhausted with the
recursion still running. `gen k` is the instance drawn on attempt `k`. -/
def reset (cfg : MkpConfig) (gen : Nat → MkpInstance) : Nat → Nat → Option EnvState
  | _, 0 => none
  | k, fuel + 1 =>
    let s := resetOnce cfg (gen k)
    if allUnavailable cfg s.internal_state then reset cfg gen (k + 1) fuel
    else some s

/-- Distinct Python exceptions that `step` can raise, in source order:
`IndexError` from the numpy row access for an index past the matrix,
`AssertionError` from `assert reward < 1.0` in `compute_reward`,
`AssertionError` "The Same Item Selected", and `AssertionError` on the
resource-limit check. -/
inductive StepError where
  | indexError
  | assertRewardLt1
  | assertSameItemSelected
  | assertResourceLimit
deriving DecidableEq, Repr

/-- `compute_reward`: `reward = value_step / self._total_value` followed by
`assert reward < 1.0`. When `total_value = 0` the float division yields
`nan` (or `+inf` for a positive numerator), and `nan < 1.0` / `inf < 1.0` are
both false, so the assertion fails; this embedding therefore reports the
assertion failure whenever the denominator is zero (all instances considered
by the theorems have nonnegative values, which is the regime where that float
behaviour is exact). -/
def compute_reward (total_value value_step : Rat) : Except StepError Rat :=
  if total_value = 0 then .error .assertRewardLt1
  else
    let reward := value_step / total_value
    if reward < 1 then .ok reward else .error .assertRewardLt1

/-- `resources_step`: the demand entries of row `action_idx`, read before any
mutation. -/
def resourcesStep (cfg : MkpConfig) (m : List (List Rat)) (a : Nat) : List Rat :=
  (List.range cfg.n_resources).map fun i => cell m a (i + 2)

/-- The matrix mutations of a successful `step`, in source order:
`state[a, 0] = 1.0; state[a, 1:] = 0.0`, then
`state[-1, 1] += value_step` and `state[-1, 2:] -= resources_step`.
The writes are sequential, so when `a` is the aggregate row itself
(`a = num_items`, which numpy accepts silently) the second write reads the
already-zeroed row, exactly as in the source. -/
def selectRow (cfg : MkpConfig) (m : List (List Rat)) (a : Nat)
    (value_step : Rat) (resources_step : List Rat) : List (List Rat) :=
  let m1 := m.set a ((1 : Rat) :: List.replicate (1 + cfg.n_resources) (0 : Rat))
  m1.set cfg.num_items
    (cell m1 cfg.num_items 0 ::
     (cell m1 cfg.num_items 1 + value_step) ::
     ((List.range cfg.n_resources).map fun r =>
       cell m1 cfg.num_items (2 + r) - resources_step.getD r 0))

/-- `_normalize_internal_state`: copy the matrix, divide column 1 by
`highest_item_value` and column `2 + r` by `initial_resources_capacity[r]`;
column 0 is untouched. -/
def normalize_internal_state (cfg : MkpConfig) (m : List (List Rat)) :
    List (List Rat) :=
  m.map fun row =>
    row.enum.map fun p =>
      if p.1 = 1 then p.2 / (cfg.highest_item_value : Rat)
      else if 2 ≤ p.1 ∧ p.1 < 2 + cfg.n_resources then
        p.2 / cfg.initial_resources_capacity.getD (p.1 - 2) 0
      else p.2

/-- The observation built by `reset`/`step`: the internal matrix, optionally
normalized, flattened row-major. -/
def observationOf (s : EnvState) : List Rat :=
  (if s.cfg.state_normalization then
    normalize_internal_state s.cfg s.internal_state
  else s.internal_state).flatten

/-- The `info` dictionary: the keys set by `fill_info` plus the
`DoneReasonType` and `ACTION_MASK` keys set by `reset`/`step` (the source
stores `INITIAL_RESOURCES_CAPACITY` wrapped in a 1-tuple because of a
trailing comma; the payload is the capacity list modelled here). -/
structure StepInfo where
  internal_state : List (List Rat)
  actions_selected : List Nat
  value_allocated : Rat
  resources_allocated : List Rat
  total_allocated : Rat
  initial_resources_capacity : List Rat
  each_resource_demand : List Rat
  done_reason : Option DoneReasonType
  action_mask : List Rat
deriving DecidableEq, Repr

/-- `EACH_RESOURCE_DEMAND`: `np.sum(internal_state[:-1, 2:], axis=0)`. -/
def eachResourceDemand (s : EnvState) : List Rat :=
  (List.range s.cfg.n_resources).map fun r =>
    ((List.range s.cfg.num_items).map fun i => cell s.internal_state i (2 + r)).sum

/-- `fill_info` plus the caller-set `DoneReasonType` / `ACTION_MASK` keys. -/
def mkInfo (s : EnvState) (reason : Option DoneReasonType) (mask : List Rat) :
    StepInfo :=
  { internal_state := s.internal_state
    actions_selected := s.actions_selected
    value_allocated := s.value_allocated
    resources_allocated := s.resources_allocated
    total_allocated := s.resources_allocated.sum
    initial_resources_capacity := s.cfg.initial_resources_capacity
    each_resource_demand := eachResourceDemand s
    done_reason := reason
    action_mask := mask }

/-- Outcome of one `step` call. The `err` constructor carries the
environment state as already mutated when the exception was raised (the
Python object keeps those mutations). -/
inductive StepOutcome where
  | ok (s : EnvState) (obs : List Rat) (reward : Rat)
      (terminated truncated : Bool) (info : StepInfo)
  | err (s : EnvState) (e : StepError)
deriving DecidableEq, Repr

def StepOutcome.state : StepOutcome → EnvState
  | .ok s _ _ _ _ _ => s
  | .err s _ => s

def StepOutcome.isOk : StepOutcome → Bool
  | .ok _ _ _ _ _ _ => true
  | .err _ _ => false

def StepOutcome.terminatedFlag : StepOutcome → Bool
  | .ok _ _ _ t _ _ => t
  | .err _ _ => false

def StepOutcome.obsOf : StepOutcome → List Rat
  | .ok _ o _ _ _ _ => o
  | .err _ _ => []

def StepOutcome.rewardValue : StepOutcome → Rat
  | .ok _ _ r _ _ _ => r
  | .err _ _ => 0

def StepOutcome.errOf : StepOutcome → Option StepError
  | .ok _ _ _ _ _ _ => none
  | .err _ e => some e

def StepOutcome.theInfo : StepOutcome → StepInfo
  | .ok _ _ _ _ _ i => i
  | .err s _ => mkInfo s none []

def StepOutcome.doneReason : StepOutcome → Option DoneReasonType
  | .ok _ _ _ _ _ i => i.done_reason
  | .err _ _ => none

/-- The state of the environment after all in-place mutations of a
successful `step` on action `a` with computed reward `rw`: the history
append of line 169, the `self._reward` assignment of line 176, the matrix
writes of lines 184-188, `self._value_allocated += value_step`, and the list
concatenation `self._resources_allocated += resources_step`. -/
def stepApply (s : EnvState) (a : Nat) (rw : Rat) : EnvState :=
  { s with
    actions_selected := s.actions_selected ++ [a]
    reward := some rw
    internal_state :=
      selectRow s.cfg s.internal_state a (cell s.internal_state a 1)
        (resourcesStep s.cfg s.internal_state a)
    value_allocated := s.value_allocated + cell s.internal_state a 1
    resources_allocated :=
      s.resources_allocated ++ resourcesStep s.cfg s.internal_state a }

/-- The non-terminal branch's `self._action_mask[unavailable_items_indices]
= 1.0`: entries at currently-unavailable indices are set to `1.0`, the rest
keep their previous value. -/
def maskAfter (s3 : EnvState) : List Rat :=
  (List.range s3.cfg.num_items).map fun i =>
    if unavailableItem s3.cfg s3.internal_state i then (1 : Rat)
    else s3.action_mask.getD i 0

/-- `stepApply` followed by the non-terminal mask update. -/
def stepMasked (s : EnvState) (a : Nat) (rw : Rat) : EnvState :=
  { stepApply s a rw with action_mask := maskAfter (stepApply s a rw) }

/-- `step(action_idx)`, line by line. The append to `_actions_selected`
happens before anything can fail; the numpy read of row `action_idx` raises
`IndexError` only when the index is past the `num_items + 1` rows (index
`num_items` silently addresses the aggregate row); `compute_reward` runs (and
can fail) before the two asserts; on success the matrix, the value and
resource bookkeeping, the mask (non-terminal branch only), and the info
dictionary are updated as in the source. -/
def step (s0 : EnvState) (a : Nat) : StepOutcome :=
  let s1 : EnvState := { s0 with actions_selected := s0.actions_selected ++ [a] }
  if s0.cfg.num_items + 1 ≤ a then .err s1 .indexError
  else
    let value_step := cell s0.internal_state a 1
    let resources_step := resourcesStep s0.cfg s0.internal_state a
    match compute_reward s0.total_value value_step with
    | .error e => .err s1 e
    | .ok rw =>
      let s2 : EnvState := { s1 with reward := some rw }
      if cell s0.internal_state a 0 = 0 then
        if (List.range s0.cfg.n_resources).all (fun i =>
            decide (s0.resources_allocated.getD i 0 + resources_step.getD i 0 ≤
              s0.cfg.initial_resources_capacity.getD i 0)) then
          let s3 : EnvState := stepApply s0 a rw
          let obs := observationOf s3
          if allUnavailable s0.cfg s3.internal_state then
            .ok s3 obs rw true false
              (mkInfo s3 (some .TYPE_SUCCESS_2)
                (List.replicate s0.cfg.num_items (-1 : Rat)))
          else
            let s4 : EnvState := stepMasked s0 a rw
            .ok s4 obs rw false false (mkInfo s4 none s4.action_mask)
        else .err s2 .assertResourceLimit
      else .err s2 .assertSameItemSelected

/-- Construction-time failures of `MkpEnv.__init__`: `max()` of an empty
sequence on line 50 (`ValueError`, when both the demand-bound list and the
capacity list are empty), and the `n > 0` assertion inside
`gymnasium.spaces.Discrete` on line 53 (when `num_items == 0`). No
configuration validation of its own is performed. -/
inductive InitError where
  | valueErrorMaxEmpty
  | assertDiscretePositive
deriving DecidableEq, Repr

/-- `max(self._highest_item_resource_demand + self._initial_resources_capacity)`
then `max(·, self._highest_item_value)` (lines 50-51), for nonempty input. -/
def max_state_value (cfg : MkpConfig) : Rat :=
  max (((cfg.highest_item_resource_demand.map (Int.cast)) ++
    cfg.initial_resources_capacity).foldr max 0) (cfg.highest_item_value : Rat)

/-- `MkpEnv.__init__`: stores the configuration; the only ways it can fail
are the library calls above (the observation-space `Box` is not given a
separate check here; the theorems about construction restrict to
`0 ≤ max_state_value`, where `Box(low=0.0, high=max_state_value)` is
well-formed). -/
def initEnv (cfg : MkpConfig) : Except InitError MkpConfig :=
  if cfg.highest_item_resource_demand.length +
      cfg.initial_resources_capacity.length = 0 then
    .error .valueErrorMaxEmpty
  else if cfg.num_items = 0 then .error .assertDiscretePositive
  else .ok cfg

/-- The resource consumption the spec calls `consumed[r]`: the capacity minus
the remaining capacity held in the aggregate row of the matrix. -/
def consumedAmount (s : EnvState) (r : Nat) : Rat :=
  s.cfg.initial_resources_capacity.getD r 0 -
    cell s.internal_state s.cfg.num_items (2 + r)

/-- Sum of the (instance) demands of the currently selected items in
resource dimension `r`. -/
def selectedDemandSum (cfg : MkpConfig) (inst : MkpInstance)
    (m : List (List Rat)) (r : Nat) : Rat :=
  ((List.range cfg.num_items).map fun i =>
    if cell m i 0 = 1 then (inst.item_resource_demand.getD i []).getD r 0
    else 0).sum

/-- The data-model side conditions of the spec (§3): item values and demands
are nonnegative, capacities strictly positive. -/
def InstWF (cfg : MkpConfig) (inst : MkpInstance) : Prop :=
  (∀ v ∈ inst.item_values, 0 ≤ v) ∧
  (∀ d ∈ inst.item_resource_demand, ∀ x ∈ d, 0 ≤ x) ∧
  (∀ c ∈ cfg.initial_resources_capacity, 0 < c)

/-- Reachable episode states: a non-degenerate `reset` result, extended by
`step` calls taken while the episode is live (previous step not terminated)
whose action is in range and unmasked at the time it is taken. The `Bool`
index records whether the state was produced as a terminated one; per the
lifecycle in the spec, a terminated episode state is discarded and not
stepped again. -/
inductive Reachable (cfg : MkpConfig) (inst : MkpInstance) :
    EnvState → Bool → Prop where
  | reset
      (h : allUnavailable cfg (resetOnce cfg inst).internal_state = false) :
      Reachable cfg inst (resetOnce cfg inst) false
  | step (s : EnvState) (a : Nat)
      (hr : Reachable cfg inst s false)
      (ha : a < cfg.num_items)
      (hm : s.action_mask.getD a 0 = 0)
      (hok : (step s a).isOk = true) :
      Reachable cfg inst ((step s a).state) ((step s a).terminatedFlag)

/-- Toggle only the `state_normalization` flag of a state's configuration. -/
def setNorm (s : EnvState) (b : Bool) : EnvState :=
  { s with cfg := { s.cfg with state_normalization := b } }

/-- The inductive invariant of reachable episode states. `term` is the
terminated flag under which the state was produced; the stored action mask
is only guaranteed to match a fresh recomputation while the episode is live,
because the terminal branch of `step` does not update `self._action_mask`. -/
structure Inv (cfg : MkpConfig) (inst : MkpInstance) (s : EnvState)
    (term : Bool) : Prop where
  cfg_eq : s.cfg = cfg
  nrows : s.internal_state.length = cfg.num_items + 1
  flag01 : ∀ i < cfg.num_items,
    cell s.internal_state i 0 = 0 ∨ cell s.internal_state i 0 = 1
  unsel_val : ∀ i < cfg.num_items, cell s.internal_state i 0 = 0 →
    cell s.internal_state i 1 = inst.item_values.getD i 0
  unsel_dem : ∀ i < cfg.num_items, cell s.internal_state i 0 = 0 →
    ∀ r < cfg.n_resources,
      cell s.internal_state i (2 + r) =
        (inst.item_resource_demand.getD i []).getD r 0
  sel_zero : ∀ i < cfg.num_items, cell s.internal_state i 0 = 1 →
    ∀ j, 0 < j → cell s.internal_state i j = 0
  rem_eq : ∀ r < cfg.n_resources,
    cell s.internal_state cfg.num_items (2 + r) =
      cfg.initial_resources_capacity.getD r 0 -
        selectedDemandSum cfg inst s.internal_state r
  rem_nonneg : ∀ r < cfg.n_resources,
    0 ≤ cell s.internal_state cfg.num_items (2 + r)
  mask_pure : term = false → ∀ i < cfg.num_items,
    s.action_mask.getD i 0 =
      if unavailableItem cfg s.internal_state i then 1 else 0
  total_eq : s.total_value = totalValueOf cfg inst

/-! Concrete instances used to exercise the model (scenario A and B of the
spec, a zero-value instance, a normalization run, a degenerate instance, and
a malformed configuration). -/

/-- Scenario A of the spec: 3 items, one resource, capacity 10, demands
`[4, 4, 4]`, values `[1, 1, 1]`. -/
def cfgA : MkpConfig :=
  { num_items := 3, n_resources := 1
    initial_resources_capacity := [10]
    lowest_item_resource_demand := [1], highest_item_resource_demand := [5]
    lowest_item_value := 1, highest_item_value := 2
    use_static_item_resource_demand := true
    use_same_item_resource_demand := false
    state_normalization := false }

def instA : MkpInstance :=
  { item_values := [1, 1, 1], item_resource_demand := [[4], [4], [4]] }

def sA0 : EnvState := resetOnce cfgA instA

def sA1 : EnvState := (step sA0 0).state

/-- Scenario B of the spec: 2 items, two resources, capacity `[5, 5]`,
demands `[[1, 1], [1, 1]]`, values `[10, 10]`; both items fit. -/
def cfgB : MkpConfig :=
  { num_items := 2, n_resources := 2
    initial_resources_capacity := [5, 5]
    lowest_item_resource_demand := [1, 1], highest_item_resource_demand := [2, 2]
    lowest_item_value := 1, highest_item_value := 11
    use_static_item_resource_demand := true
    use_same_item_resource_demand := false
    state_normalization := false }

def instB : MkpInstance :=
  { item_values := [10, 10], item_resource_demand := [[1, 1], [1, 1]] }

def sB0 : EnvState := resetOnce cfgB instB

def sB1 : EnvState := (step sB0 0).state

/-- A degenerate-but-representable instance with `total_value = 0`: one item
of value 0 and demand 1 against capacity 10. -/
def cfgZ : MkpConfig :=
  { num_items := 1, n_resources := 1
    initial_resources_capacity := [10]
    lowest_item_resource_demand := [1], highest_item_resource_demand := [2]
    lowest_item_value := 0, highest_item_value := 1
    use_static_item_resource_demand := true
    use_same_item_resource_demand := false
    state_normalization := false }

def instZ : MkpInstance :=
  { item_values := [0], item_resource_demand := [[1]] }

def sZ0 : EnvState := resetOnce cfgZ instZ

/-- A normalization run: 2 items of value 3 (so `value_allocated` can reach
6) with `highest_item_value = 4`, demands 1 against capacity 10,
normalization switched on. -/
def cfgN : MkpConfig :=
  { num_items := 2, n_resources := 1
    initial_resources_capacity := [10]
    lowest_item_resource_demand := [1], highest_item_resource_demand := [2]
    lowest_item_value := 1, highest_item_value := 4
    use_static_item_resource_demand := true
    use_same_item_resource_demand := false
    state_normalization := true }

def instN : MkpInstance :=
  { item_values := [3, 3], item_resource_demand := [[1], [1]] }

def sN0 : EnvState := resetOnce cfgN instN

def sN1 : EnvState := (step sN0 0).state

/-- A degenerate instance: the single item's demand 7 already exceeds the
capacity 5, so the initial action mask marks every item unavailable. -/
def cfgDeg : MkpConfig :=
  { num_items := 1, n_resources := 1
    initial_resources_capacity := [5]
    lowest_item_resource_demand := [7], highest_item_resource_demand := [8]
    lowest_item_value := 1, highest_item_value := 2
    use_static_item_resource_demand := true
    use_same_item_resource_demand := false
    state_normalization := false }

def instDeg : MkpInstance :=
  { item_values := [1], item_resource_demand := [[7]] }

/-- The static generator stream: every `reset` attempt draws the same
degenerate instance. -/
def genDeg : Nat → MkpInstance := fun _ => instDeg

/-- A malformed configuration per the spec's `ConfigError` list: a
nonpositive capacity and inverted (empty) sampling ranges for both demand
and value. -/
def cfgBad : MkpConfig :=
  { num_items := 1, n_resources := 1
    initial_resources_capacity := [0]
    lowest_item_resource_demand := [7], highest_item_resource_demand := [5]
    lowest_item_value := 9, highest_item_value := 3
    use_static_item_resource_demand := false
    use_same_item_resource_demand := false
    state_normalization := false }

/-! ### List and matrix-cell helper lemmas -/

theorem getD_map_range {α : Type} (f : Nat → α) (n i : Nat) (d : α) :
    ((List.range n).map f).getD i d = if i < n then f i else d := by
  rw [List.getD_eq_getElem?_getD, List.getElem?_map]
  by_cases h : i < n
  · rw [List.getElem?_range h]
    simp [h]
  · rw [List.getElem?_eq_none (by simpa using Nat.le_of_not_lt h)]
    simp [h]

theorem getD_set_self {α : Type} (l : List α) (i : Nat) (x d : α)
    (h : i < l.length) : (l.set i x).getD i d = x := by
  rw [List.getD_eq_getElem?_getD, List.getElem?_set_self h]
  rfl

theorem getD_set_ne {α : Type} (l : List α) {i j : Nat} (x d : α)
    (h : i ≠ j) : (l.set i x).getD j d = l.getD j d := by
  rw [List.getD_eq_getElem?_getD, List.getElem?_set_ne h,
    ← List.getD_eq_getElem?_getD]

theorem getD_append_left {α : Type} (l₁ l₂ : List α) (i : Nat) (d : α)
    (h : i < l₁.length) : (l₁ ++ l₂).getD i d = l₁.getD i d := by
  rw [List.getD_eq_getElem?_getD, List.getElem?_append, if_pos h,
    ← List.getD_eq_getElem?_getD]

theorem getD_append_right {α : Type} (l₁ l₂ : List α) (i : Nat) (d : α)
    (h : l₁.length ≤ i) : (l₁ ++ l₂).getD i d = l₂.getD (i - l₁.length) d := by
  rw [List.getD_eq_getElem?_getD, List.getElem?_append_right h,
    ← List.getD_eq_getElem?_getD]

theorem getD_replicate_self {α : Type} (n i : Nat) (x : α) :
    (List.replicate n x).getD i x = x := by
  rw [List.getD_eq_getElem?_getD, List.getElem?_replicate]
  by_cases h : i < n <;> simp [h]

theorem getD_nonneg_of_forall (l : List Rat) (h : ∀ x ∈ l, 0 ≤ x) (i : Nat) :
    0 ≤ l.getD i 0 := by
  rw [List.getD_eq_getElem?_getD]
  cases hl : l[i]? with
  | none => simp
  | some x => exact (by simpa using h x (List.getElem?_mem hl))

theorem sum_map_range_congr (n : Nat) (f g : Nat → Rat)
    (h : ∀ i < n, f i = g i) :
    ((List.range n).map f).sum = ((List.range n).map g).sum := by
  induction n with
  | zero => rfl
  | succ n ih =>
    rw [List.range_succ]
    simp only [List.map_append, List.sum_append, List.map_cons, List.map_nil,
      List.sum_cons, List.sum_nil]
    rw [ih (fun i hi => h i (Nat.lt_succ_of_lt hi)), h n (Nat.lt_succ_self n)]

theorem sum_map_range_sub (n : Nat) (f g : Nat → Rat) (a : Nat) (ha : a < n)
    (h : ∀ i < n, i ≠ a → f i = g i) :
    ((List.range n).map f).sum = ((List.range n).map g).sum + (f a - g a) := by
  induction n with
  | zero => exact absurd ha (Nat.not_lt_zero a)
  | succ n ih =>
    rw [List.range_succ]
    simp only [List.map_append, List.sum_append, List.map_cons, List.map_nil,
      List.sum_cons, List.sum_nil]
    rcases Nat.lt_succ_iff_lt_or_eq.mp ha with ha1 | ha1
    · rw [ih ha1 (fun i hi hia => h i (Nat.lt_succ_of_lt hi) hia),
        h n (Nat.lt_succ_self n) (by omega)]
      ring
    · subst ha1
      rw [sum_map_range_congr _ f g (fun i hi => h i (Nat.lt_succ_of_lt hi) (by omega))]
      ring

/-! ### Cells of the initial matrix -/

theorem length_init (cfg : MkpConfig) (inst : MkpInstance) :
    (get_initial_internal_state cfg inst).length = cfg.num_items + 1 := by
  simp [get_initial_internal_state]

theorem row_init_item (cfg : MkpConfig) (inst : MkpInstance) {i : Nat}
    (hi : i < cfg.num_items) :
    (get_initial_internal_state cfg inst).getD i [] =
      (0 : Rat) :: inst.item_values.getD i 0 ::
        ((List.range cfg.n_resources).map fun r =>
          (inst.item_resource_demand.getD i []).getD r 0) := by
  unfold get_initial_internal_state
  rw [getD_append_left _ _ _ _ (by simpa using hi), getD_map_range, if_pos hi]

theorem row_init_agg (cfg : MkpConfig) (inst : MkpInstance) :
    (get_initial_internal_state cfg inst).getD cfg.num_items [] =
      (0 : Rat) :: (0 : Rat) :: cfg.initial_resources_capacity := by
  unfold get_initial_internal_state
  rw [getD_append_right _ _ _ _ (by simp)]
  simp

theorem cell_init_flag (cfg : MkpConfig) (inst : MkpInstance) {i : Nat}
    (hi : i < cfg.num_items) :
    cell (get_initial_internal_state cfg inst) i 0 = 0 := by
  unfold cell
  rw [row_init_item cfg inst hi]
  rfl

theorem cell_init_val (cfg : MkpConfig) (inst : MkpInstance) {i : Nat}
    (hi : i < cfg.num_items) :
    cell (get_initial_internal_state cfg inst) i 1 =
      inst.item_values.getD i 0 := by
  unfold cell
  rw [row_init_item cfg inst hi]
  rfl

theorem cell_init_dem (cfg : MkpConfig) (inst : MkpInstance) {i r : Nat}
    (hi : i < cfg.num_items) (hr : r < cfg.n_resources) :
    cell (get_initial_internal_state cfg inst) i (2 + r) =
      (inst.item_resource_demand.getD i []).getD r 0 := by
  unfold cell
  rw [row_init_item cfg inst hi, Nat.add_comm 2 r]
  show ((List.range cfg.n_resources).map fun r =>
    (inst.item_resource_demand.getD i []).getD r 0).getD r 0 = _
  rw [getD_map_range, if_pos hr]

theorem cell_init_aggR (cfg : MkpConfig) (inst : MkpInstance) (r : Nat) :
    cell (get_initial_internal_state cfg inst) cfg.num_items (2 + r) =
      cfg.initial_resources_capacity.getD r 0 := by
  unfold cell
  rw [row_init_agg cfg inst, Nat.add_comm 2 r]
  rfl

/-! ### Cells after `selectRow` -/

section SelectRowCells

variable (cfg : MkpConfig) (m : List (List Rat)) (a : Nat)
  (v : Rat) (rs : List Rat)

theorem length_selectRow :
    (selectRow cfg m a v rs).length = m.length := by
  simp [selectRow]

theorem cell_selectRow_sel_flag (hm : m.length = cfg.num_items + 1)
    (ha : a < cfg.num_items) :
    cell (selectRow cfg m a v rs) a 0 = 1 := by
  unfold selectRow cell
  rw [getD_set_ne _ _ _ (by omega), getD_set_self _ _ _ _ (by omega)]
  rfl

theorem cell_selectRow_sel_rest (hm : m.length = cfg.num_items + 1)
    (ha : a < cfg.num_items) {j : Nat} (hj : 0 < j) :
    cell (selectRow cfg m a v rs) a j = 0 := by
  unfold selectRow cell
  rw [getD_set_ne _ _ _ (by omega), getD_set_self _ _ _ _ (by omega)]
  match j, hj with
  | j + 1, _ =>
    show (List.replicate (1 + cfg.n_resources) (0 : Rat)).getD j 0 = 0
    exact getD_replicate_self _ _ _

theorem cell_selectRow_other {i : Nat} (hia : i ≠ a)
    (hiN : i ≠ cfg.num_items) (j : Nat) :
    cell (selectRow cfg m a v rs) i j = cell m i j := by
  unfold selectRow cell
  rw [getD_set_ne _ _ _ (fun h => hiN h.symm),
    getD_set_ne _ _ _ (fun h => hia h.symm)]

theorem cell_selectRow_agg0 (hm : m.length = cfg.num_items + 1)
    (ha : a < cfg.num_items) :
    cell (selectRow cfg m a v rs) cfg.num_items 0 =
      cell m cfg.num_items 0 := by
  unfold selectRow cell
  rw [getD_set_self _ _ _ _ (by simp [hm])]
  show cell (m.set a _) cfg.num_items 0 = _
  unfold cell
  rw [getD_set_ne _ _ _ (by omega)]

theorem cell_selectRow_agg1 (hm : m.length = cfg.num_items + 1)
    (ha : a < cfg.num_items) :
    cell (selectRow cfg m a v rs) cfg.num_items 1 =
      cell m cfg.num_items 1 + v := by
  unfold selectRow cell
  rw [getD_set_self _ _ _ _ (by simp [hm])]
  show cell (m.set a _) cfg.num_items 1 + v = _
  unfold cell
  rw [getD_set_ne _ _ _ (by omega)]

theorem cell_selectRow_aggR (hm : m.length = cfg.num_items + 1)
    (ha : a < cfg.num_items) {r : Nat} (hr : r < cfg.n_resources) :
    cell (selectRow cfg m a v rs) cfg.num_items (2 + r) =
      cell m cfg.num_items (2 + r) - rs.getD r 0 := by
  unfold selectRow cell
  rw [getD_set_self _ _ _ _ (by simp [hm]), Nat.add_comm 2 r]
  show ((List.range cfg.n_resources).map fun r =>
      cell (m.set a _) cfg.num_items (2 + r) - rs.getD r 0).getD r 0 = _
  rw [getD_map_range, if_pos hr]
  unfold cell
  rw [getD_set_ne _ _ _ (by omega), Nat.add_comm 2 r]

end SelectRowCells

/-! ### Boolean characterizations -/

theorem unavailableItem_iff (cfg : MkpConfig) (m : List (List Rat)) (i : Nat) :
    unavailableItem cfg m i = true ↔
      cell m i 0 = 1 ∨ ∃ r < cfg.n_resources,
        cell m cfg.num_items (2 + r) < cell m i (2 + r) := by
  unfold unavailableItem
  simp [List.any_eq_true, List.mem_range, beq_iff_eq]

theorem unavailableItem_false_iff (cfg : MkpConfig) (m : List (List Rat))
    (i : Nat) :
    unavailableItem cfg m i = false ↔
      ¬ (cell m i 0 = 1) ∧ ∀ r < cfg.n_resources,
        cell m i (2 + r) ≤ cell m cfg.num_items (2 + r) := by
  rw [← Bool.not_eq_true, unavailableItem_iff]
  push_neg
  rfl

theorem allUnavailable_iff (cfg : MkpConfig) (m : List (List Rat)) :
    allUnavailable cfg m = true ↔
      ∀ i < cfg.num_items, unavailableItem cfg m i = true := by
  unfold allUnavailable
  simp [List.all_eq_true, List.mem_range]

theorem resourcesStep_getD (cfg : MkpConfig) (m : List (List Rat)) (a r : Nat)
    (hr : r < cfg.n_resources) :
    (resourcesStep cfg m a).getD r 0 = cell m a (2 + r) := by
  unfold resourcesStep
  rw [getD_map_range, if_pos hr, Nat.add_comm]

/-! ### Inversion of a successful `step` -/

theorem step_ok_inversion {s : EnvState} {a : Nat} {s' : EnvState}
    {obs : List Rat} {rw : Rat} {term trunc : Bool} {info : StepInfo}
    (h : step s a = .ok s' obs rw term trunc info) :
    a ≤ s.cfg.num_items ∧
    cell s.internal_state a 0 = 0 ∧
    compute_reward s.total_value (cell s.internal_state a 1) = .ok rw ∧
    obs = observationOf (stepApply s a rw) ∧
    term = allUnavailable s.cfg (stepApply s a rw).internal_state ∧
    trunc = false ∧
    (term = true → s' = stepApply s a rw ∧
      info = mkInfo (stepApply s a rw) (some .TYPE_SUCCESS_2)
        (List.replicate s.cfg.num_items (-1 : Rat))) ∧
    (term = false → s' = stepMasked s a rw ∧
      info = mkInfo (stepMasked s a rw) none (stepMasked s a rw).action_mask) := by
  simp only [step] at h
  by_cases hidx : s.cfg.num_items + 1 ≤ a
  · rw [if_pos hidx] at h
    exact absurd h (by simp)
  rw [if_neg hidx] at h
  split at h
  · exact absurd h (by simp)
  · rename_i rw0 hcr
    by_cases hsel : cell s.internal_state a 0 = 0
    · rw [if_pos hsel] at h
      by_cases hres : ((List.range s.cfg.n_resources).all fun i =>
          decide (s.resources_allocated.getD i 0 +
            (resourcesStep s.cfg s.internal_state a).getD i 0 ≤
              s.cfg.initial_resources_capacity.getD i 0)) = true
      · rw [if_pos hres] at h
        by_cases hterm :
            allUnavailable s.cfg (stepApply s a rw0).internal_state = true
        · rw [if_pos hterm] at h
          simp only [StepOutcome.ok.injEq] at h
          obtain ⟨h1, h2, h3, h4, h5, h6⟩ := h
          subst h1; subst h2; subst h3; subst h4; subst h5; subst h6
          refine ⟨by omega, hsel, hcr, rfl, hterm.symm, rfl, fun _ => ⟨rfl, rfl⟩,
            fun hf => absurd hf (by simp)⟩
        · rw [if_neg hterm] at h
          simp only [StepOutcome.ok.injEq] at h
          obtain ⟨h1, h2, h3, h4, h5, h6⟩ := h
          subst h1; subst h2; subst h3; subst h4; subst h5; subst h6
          refine ⟨by omega, hsel, hcr, rfl, by simp [hterm], rfl,
            fun hf => absurd hf (by simp), fun _ => ⟨rfl, rfl⟩⟩
      · rw [if_neg hres] at h
        exact absurd h (by simp)
    · rw [if_neg hsel] at h
      exact absurd h (by simp)

/-! ### The invariant holds after `reset` -/

theorem getD_getD_dem_nonneg (inst : MkpInstance)
    (hd : ∀ d ∈ inst.item_resource_demand, ∀ x ∈ d, 0 ≤ x) (i r : Nat) :
    0 ≤ (inst.item_resource_demand.getD i []).getD r 0 := by
  apply getD_nonneg_of_forall
  rw [List.getD_eq_getElem?_getD]
  cases hl : inst.item_resource_demand[i]? with
  | none => simp
  | some d => simpa using hd d (List.getElem?_mem hl)

theorem inv_resetOnce (cfg : MkpConfig) (inst : MkpInstance)
    (hwf : InstWF cfg inst) : Inv cfg inst (resetOnce cfg inst) false := by
  obtain ⟨hv, hd, hc⟩ := hwf
  have hmask : (resetOnce cfg inst).action_mask =
      (List.range cfg.num_items).map fun i =>
        if unavailableItem cfg (get_initial_internal_state cfg inst) i then
          (1 : Rat) else 0 := rfl
  have hst : (resetOnce cfg inst).internal_state =
      get_initial_internal_state cfg inst := rfl
  refine ⟨rfl, by rw [hst]; exact length_init cfg inst, ?_, ?_, ?_, ?_, ?_, ?_,
    ?_, rfl⟩
  · intro i hi
    rw [hst]
    exact Or.inl (cell_init_flag cfg inst hi)
  · intro i hi _
    rw [hst]
    exact cell_init_val cfg inst hi
  · intro i hi _ r hr
    rw [hst]
    exact cell_init_dem cfg inst hi hr
  · intro i hi hflag
    rw [hst] at hflag
    rw [cell_init_flag cfg inst hi] at hflag
    exact absurd hflag.symm one_ne_zero
  · intro r hr
    rw [hst, cell_init_aggR]
    have hzero : selectedDemandSum cfg inst
        (get_initial_internal_state cfg inst) r = 0 := by
      apply List.sum_eq_zero
      intro x hx
      obtain ⟨i, hi, hix⟩ := List.mem_map.mp hx
      rw [← hix, if_neg]
      rw [cell_init_flag cfg inst (List.mem_range.mp hi)]
      norm_num
    rw [hzero]
    ring
  · intro r hr
    rw [hst, cell_init_aggR]
    exact getD_nonneg_of_forall _ (fun c hcm => le_of_lt (hc c hcm)) r
  · intro _ i hi
    rw [hmask, hst, getD_map_range, if_pos hi]

/-! ### The invariant is preserved by a legal `step` -/

theorem inv_step (cfg : MkpConfig) (inst : MkpInstance) (hwf : InstWF cfg inst)
    {s : EnvState} (hInv : Inv cfg inst s false) {a : Nat}
    (ha : a < cfg.num_items) (hm : s.action_mask.getD a 0 = 0)
    {s' : EnvState} {obs : List Rat} {rw : Rat} {term trunc : Bool}
    {info : StepInfo} (h : step s a = .ok s' obs rw term trunc info) :
    Inv cfg inst s' term := by
  have hcfg : s.cfg = cfg := hInv.cfg_eq
  subst hcfg
  obtain ⟨hv, hd, hc⟩ := hwf
  obtain ⟨hidx, hsel, hcr, hobs, hterm, htrunc, hT, hF⟩ := step_ok_inversion h
  have hlen : s.internal_state.length = s.cfg.num_items + 1 := hInv.nrows
  have havail : unavailableItem s.cfg s.internal_state a = false := by
    have hmp := hInv.mask_pure rfl a ha
    cases hu : unavailableItem s.cfg s.internal_state a with
    | false => rfl
    | true =>
      rw [hu, hm] at hmp
      exact absurd hmp.symm (by norm_num)
  have hfits : ∀ r < s.cfg.n_resources,
      cell s.internal_state a (2 + r) ≤
        cell s.internal_state s.cfg.num_items (2 + r) :=
    ((unavailableItem_false_iff s.cfg s.internal_state a).mp havail).2
  have hm2 : (stepApply s a rw).internal_state =
      selectRow s.cfg s.internal_state a (cell s.internal_state a 1)
        (resourcesStep s.cfg s.internal_state a) := rfl
  have c_sel0 : cell (stepApply s a rw).internal_state a 0 = 1 := by
    rw [hm2]; exact cell_selectRow_sel_flag _ _ _ _ _ hlen ha
  have c_selj : ∀ j, 0 < j → cell (stepApply s a rw).internal_state a j = 0 := by
    intro j hj
    rw [hm2]; exact cell_selectRow_sel_rest _ _ _ _ _ hlen ha hj
  have c_other : ∀ i, i ≠ a → i ≠ s.cfg.num_items → ∀ j,
      cell (stepApply s a rw).internal_state i j = cell s.internal_state i j := by
    intro i hia hiN j
    rw [hm2]; exact cell_selectRow_other _ _ _ _ _ hia hiN j
  have hrs : ∀ r < s.cfg.n_resources,
      (resourcesStep s.cfg s.internal_state a).getD r 0 =
        cell s.internal_state a (2 + r) :=
    fun r hr => resourcesStep_getD _ _ _ _ hr
  have hdem_a : ∀ r < s.cfg.n_resources, cell s.internal_state a (2 + r) =
      (inst.item_resource_demand.getD a []).getD r 0 :=
    hInv.unsel_dem a ha hsel
  have c_aggR : ∀ r < s.cfg.n_resources,
      cell (stepApply s a rw).internal_state s.cfg.num_items (2 + r) =
        cell s.internal_state s.cfg.num_items (2 + r) -
          cell s.internal_state a (2 + r) := by
    intro r hr
    rw [hm2, cell_selectRow_aggR _ _ _ _ _ hlen ha hr, hrs r hr]
  have hsum : ∀ r < s.cfg.n_resources,
      selectedDemandSum s.cfg inst (stepApply s a rw).internal_state r =
        selectedDemandSum s.cfg inst s.internal_state r +
          (inst.item_resource_demand.getD a []).getD r 0 := by
    intro r hr
    have hkey := sum_map_range_sub s.cfg.num_items
      (fun i => if cell (stepApply s a rw).internal_state i 0 = 1 then
        (inst.item_resource_demand.getD i []).getD r 0 else 0)
      (fun i => if cell s.internal_state i 0 = 1 then
        (inst.item_resource_demand.getD i []).getD r 0 else 0)
      a ha (fun i hi hia => by simp only; rw [c_other i hia (by omega) 0])
    unfold selectedDemandSum
    rw [hkey]
    norm_num [c_sel0, hsel]
  have hmono : ∀ i < s.cfg.num_items,
      unavailableItem s.cfg s.internal_state i = true →
        unavailableItem s.cfg (stepApply s a rw).internal_state i = true := by
    intro i hi hu
    rw [unavailableItem_iff] at hu ⊢
    by_cases hia : i = a
    · subst hia
      exact Or.inl c_sel0
    rcases hu with hflag | ⟨r, hr, hlt⟩
    · exact Or.inl (by rw [c_other i hia (by omega) 0]; exact hflag)
    · refine Or.inr ⟨r, hr, ?_⟩
      rw [c_other i hia (by omega) (2 + r), c_aggR r hr]
      have hdnn : 0 ≤ cell s.internal_state a (2 + r) := by
        rw [hdem_a r hr]
        exact getD_getD_dem_nonneg inst hd a r
      linarith
  have base :
      ∀ i < s.cfg.num_items,
        (cell (stepApply s a rw).internal_state i 0 = 0 ∨
          cell (stepApply s a rw).internal_state i 0 = 1) := by
    intro i hi
    by_cases hia : i = a
    · subst hia; exact Or.inr c_sel0
    · rw [c_other i hia (by omega) 0]
      exact hInv.flag01 i hi
  have base_val : ∀ i < s.cfg.num_items,
      cell (stepApply s a rw).internal_state i 0 = 0 →
        cell (stepApply s a rw).internal_state i 1 =
          inst.item_values.getD i 0 := by
    intro i hi h0
    by_cases hia : i = a
    · subst hia; rw [c_sel0] at h0; exact absurd h0 one_ne_zero
    · rw [c_other i hia (by omega) 0] at h0
      rw [c_other i hia (by omega) 1]
      exact hInv.unsel_val i hi h0
  have base_dem : ∀ i < s.cfg.num_items,
      cell (stepApply s a rw).internal_state i 0 = 0 →
        ∀ r < s.cfg.n_resources,
          cell (stepApply s a rw).internal_state i (2 + r) =
            (inst.item_resource_demand.getD i []).getD r 0 := by
    intro i hi h0 r hr
    by_cases hia : i = a
    · subst hia; rw [c_sel0] at h0; exact absurd h0 one_ne_zero
    · rw [c_other i hia (by omega) 0] at h0
      rw [c_other i hia (by omega) (2 + r)]
      exact hInv.unsel_dem i hi h0 r hr
  have base_selz : ∀ i < s.cfg.num_items,
      cell (stepApply s a rw).internal_state i 0 = 1 →
        ∀ j, 0 < j → cell (stepApply s a rw).internal_state i j = 0 := by
    intro i hi h1 j hj
    by_cases hia : i = a
    · subst hia; exact c_selj j hj
    · rw [c_other i hia (by omega) 0] at h1
      rw [c_other i hia (by omega) j]
      exact hInv.sel_zero i hi h1 j hj
  have base_rem_eq : ∀ r < s.cfg.n_resources,
      cell (stepApply s a rw).internal_state s.cfg.num_items (2 + r) =
        s.cfg.initial_resources_capacity.getD r 0 -
          selectedDemandSum s.cfg inst (stepApply s a rw).internal_state r := by
    intro r hr
    rw [c_aggR r hr, hsum r hr, hInv.rem_eq r hr, hdem_a r hr]
    ring
  have base_rem_nonneg : ∀ r < s.cfg.n_resources,
      0 ≤ cell (stepApply s a rw).internal_state s.cfg.num_items (2 + r) := by
    intro r hr
    rw [c_aggR r hr]
    have := hfits r hr
    linarith
  cases term with
  | true =>
    obtain ⟨hs', _⟩ := hT rfl
    subst hs'
    exact ⟨rfl, by rw [hm2, length_selectRow]; exact hlen, base, base_val,
      base_dem, base_selz, base_rem_eq, base_rem_nonneg,
      fun hff => absurd hff (by simp), hInv.total_eq⟩
  | false =>
    obtain ⟨hs', _⟩ := hF rfl
    subst hs'
    have hms : (stepMasked s a rw).internal_state =
        (stepApply s a rw).internal_state := rfl
    refine ⟨rfl, by rw [hms, hm2, length_selectRow]; exact hlen, ?_, ?_, ?_, ?_,
      ?_, ?_, ?_, hInv.total_eq⟩
    · rw [hms]; exact base
    · rw [hms]; exact base_val
    · rw [hms]; exact base_dem
    · rw [hms]; exact base_selz
    · rw [hms]; exact base_rem_eq
    · rw [hms]; exact base_rem_nonneg
    · intro _ i hi
      rw [hms]
      have hmA : (stepMasked s a rw).action_mask =
          (List.range s.cfg.num_items).map fun i =>
            if unavailableItem s.cfg (stepApply s a rw).internal_state i then
              (1 : Rat) else s.action_mask.getD i 0 := rfl
      rw [hmA, getD_map_range, if_pos hi]
      by_cases hu : unavailableItem s.cfg (stepApply s a rw).internal_state i = true
      · rw [if_pos hu, if_pos hu]
      · rw [if_neg hu, if_neg hu]
        have hmp := hInv.mask_pure rfl i hi
        have hu0 : unavailableItem s.cfg s.internal_state i = false := by
          cases hx : unavailableItem s.cfg s.internal_state i with
          | false => rfl
          | true => exact absurd (hmono i hi hx) hu
        rw [hu0] at hmp
        simpa using hmp

/-- Every reachable episode state satisfies the inductive invariant. -/
theorem reachable_inv (cfg : MkpConfig) (inst : MkpInstance)
    (hwf : InstWF cfg inst) {s : EnvState} {b : Bool}
    (hr : Reachable cfg inst s b) : Inv cfg inst s b := by
  induction hr with
  | reset h => exact inv_resetOnce cfg inst hwf
  | step s a hr ha hm hok ih =>
    cases hstep : step s a with
    | err s2 e =>
      rw [hstep] at hok
      exact absurd hok (by simp [StepOutcome.isOk])
    | ok s2 obs rw term trunc info =>
      exact inv_step cfg inst hwf ih ha hm hstep

/-- The unavailability test, rephrased over the spec's vocabulary: on an
invariant-satisfying state, item `i` is unavailable exactly when it is
already selected or some resource would overflow its capacity. -/
theorem unavail_iff_spec (cfg : MkpConfig) (inst : MkpInstance) {s : EnvState}
    {b : Bool} (hInv : Inv cfg inst s b) :
    ∀ i < cfg.num_items,
      (unavailableItem cfg s.internal_state i = true ↔
        (cell s.internal_state i 0 = 1 ∨
          ∃ r < cfg.n_resources,
            consumedAmount s r +
              (inst.item_resource_demand.getD i []).getD r 0 >
              cfg.initial_resources_capacity.getD r 0)) := by
  intro i hi
  have hce := hInv.cfg_eq
  rw [unavailableItem_iff]
  constructor
  · rintro (hflag | ⟨r, hrr, hlt⟩)
    · exact Or.inl hflag
    · rcases hInv.flag01 i hi with h0 | h1
      · refine Or.inr ⟨r, hrr, ?_⟩
        rw [hInv.unsel_dem i hi h0 r hrr] at hlt
        unfold consumedAmount
        rw [hce]
        linarith
      · exact Or.inl h1
  · rintro (hflag | ⟨r, hrr, hgt⟩)
    · exact Or.inl hflag
    · rcases hInv.flag01 i hi with h0 | h1
      · refine Or.inr ⟨r, hrr, ?_⟩
        rw [hInv.unsel_dem i hi h0 r hrr]
        unfold consumedAmount at hgt
        rw [hce] at hgt
        linarith
      · exact Or.inl h1

/-! ### Concrete reachability chains used by the witnesses -/

theorem instWF_A : InstWF cfgA instA := by
  refine ⟨?_, ?_, ?_⟩ <;> · intros; simp_all [instA, cfgA]

theorem reachA0 : Reachable cfgA instA sA0 false :=
  Reachable.reset (by with_unfolding_all decide)

theorem reachA1 : Reachable cfgA instA sA1 false := by
  have h := Reachable.step sA0 0 reachA0 (by decide)
    (by with_unfolding_all decide) (by with_unfolding_all decide)
  have e : (step sA0 0).terminatedFlag = false := by with_unfolding_all decide
  rw [e] at h
  exact h

theorem stepA2_ok : step sA1 1 = .ok (step sA1 1).state (step sA1 1).obsOf
    (step sA1 1).rewardValue true false (step sA1 1).theInfo := by
  with_unfolding_all decide

/-! ### Claim theorems -/

/-- C1: on every reachable episode state (reset followed by any sequence of
in-range steps whose actions are unmasked when taken, over an instance
satisfying the spec's data model: nonnegative values and demands, positive
capacities), the consumed amount of every resource — the capacity minus the
remaining capacity kept in the aggregate matrix row, which equals the summed
demand of the selected items — never exceeds that resource's capacity. -/
theorem capacity_invariant_reachable (cfg : MkpConfig) (inst : MkpInstance)
    (hwf : InstWF cfg inst) {s : EnvState} {b : Bool}
    (hr : Reachable cfg inst s b) :
    ∀ r < cfg.n_resources,
      consumedAmount s r = selectedDemandSum cfg inst s.internal_state r ∧
      consumedAmount s r ≤ cfg.initial_resources_capacity.getD r 0 := by
  intro r hrr
  have hInv := reachable_inv cfg inst hwf hr
  have hce : s.cfg = cfg := hInv.cfg_eq
  constructor
  · unfold consumedAmount
    rw [hce, hInv.rem_eq r hrr]
    ring
  · unfold consumedAmount
    rw [hce]
    have := hInv.rem_nonneg r hrr
    linarith

theorem capacity_invariant_reachable_witness :
    consumedAmount sA1 0 = selectedDemandSum cfgA instA sA1.internal_state 0 ∧
    consumedAmount sA1 0 ≤ cfgA.initial_resources_capacity.getD 0 0 :=
  capacity_invariant_reachable cfgA instA instWF_A reachA1 0 (by decide)

/-- C2: on every reachable live episode state (instance as in the data
model), the action-mask entry of item `i` is `1.0` exactly when `i` is
already selected or some resource would overflow (`consumed[r] + demand[i][r]
> capacity[r]`), and is `0.0` otherwise — i.e. the exposed mask coincides
with a fresh recomputation from the current consumed/selected state. -/
theorem action_mask_correct_reachable (cfg : MkpConfig) (inst : MkpInstance)
    (hwf : InstWF cfg inst) {s : EnvState}
    (hr : Reachable cfg inst s false) :
    ∀ i < cfg.num_items,
      (s.action_mask.getD i 0 = 0 ∨ s.action_mask.getD i 0 = 1) ∧
      (s.action_mask.getD i 0 = 1 ↔
        (cell s.internal_state i 0 = 1 ∨
          ∃ r < cfg.n_resources,
            consumedAmount s r +
              (inst.item_resource_demand.getD i []).getD r 0 >
              cfg.initial_resources_capacity.getD r 0)) := by
  intro i hi
  have hInv := reachable_inv cfg inst hwf hr
  have hmp := hInv.mask_pure rfl i hi
  have hspec := unavail_iff_spec cfg inst hInv i hi
  cases hu : unavailableItem cfg s.internal_state i with
  | false =>
    rw [hu] at hmp hspec
    simp only [if_false, Bool.false_eq_true] at hmp hspec
    refine ⟨Or.inl hmp, ?_⟩
    rw [hmp]
    constructor
    · intro h01
      exact absurd h01.symm one_ne_zero
    · intro hrhs
      exact absurd hrhs (by simpa using hspec)
  | true =>
    rw [hu] at hmp hspec
    simp only [if_true] at hmp
    refine ⟨Or.inr hmp, ?_⟩
    rw [hmp]
    simp only [true_iff]
    exact hspec.mp rfl

theorem action_mask_correct_reachable_witness :
    (sA1.action_mask.getD 0 0 = 0 ∨ sA1.action_mask.getD 0 0 = 1) ∧
    (sA1.action_mask.getD 0 0 = 1 ↔
      (cell sA1.internal_state 0 0 = 1 ∨
        ∃ r < cfgA.n_resources,
          consumedAmount sA1 r +
            (instA.item_resource_demand.getD 0 []).getD r 0 >
            cfgA.initial_resources_capacity.getD r 0)) :=
  action_mask_correct_reachable cfgA instA instWF_A reachA1 0 (by decide)

theorem reachable_of_step (cfg : MkpConfig) (inst : MkpInstance)
    {s : EnvState} (hr : Reachable cfg inst s false) {a : Nat}
    (ha : a < cfg.num_items) (hm : s.action_mask.getD a 0 = 0)
    {s' : EnvState} {obs : List Rat} {rw : Rat} {term trunc : Bool}
    {info : StepInfo} (h : step s a = .ok s' obs rw term trunc info) :
    Reachable cfg inst s' term := by
  have hok : (step s a).isOk = true := by rw [h]; rfl
  have h2 := Reachable.step s a hr ha hm hok
  rw [h] at h2
  exact h2

/-- C3: a valid step (in-range, unmasked, on a data-model instance) reports
`terminated = true` exactly when, in the post-step state, no item is both
unselected and feasible: every item is either selected or exceeds some
remaining capacity. -/
theorem terminated_iff_no_feasible_item (cfg : MkpConfig) (inst : MkpInstance)
    (hwf : InstWF cfg inst) {s : EnvState}
    (hr : Reachable cfg inst s false) {a : Nat} (ha : a < cfg.num_items)
    (hm : s.action_mask.getD a 0 = 0) {s' : EnvState} {obs : List Rat}
    {rw : Rat} {term trunc : Bool} {info : StepInfo}
    (h : step s a = .ok s' obs rw term trunc info) :
    (term = true ↔
      ∀ i < cfg.num_items,
        cell s'.internal_state i 0 = 1 ∨
          ∃ r < cfg.n_resources,
            consumedAmount s' r +
              (inst.item_resource_demand.getD i []).getD r 0 >
              cfg.initial_resources_capacity.getD r 0) := by
  have hr2 := reachable_of_step cfg inst hr ha hm h
  have hInv2 := reachable_inv cfg inst hwf hr2
  obtain ⟨hidx, hsel, hcr, hobs, hterm, htrunc, hT, hF⟩ := step_ok_inversion h
  have hmeq : (stepApply s a rw).internal_state = s'.internal_state := by
    cases term with
    | true => obtain ⟨hs', _⟩ := hT rfl; rw [hs']
    | false => obtain ⟨hs', _⟩ := hF rfl; rw [hs']; rfl
  have hce : s.cfg = cfg := (reachable_inv cfg inst hwf hr).cfg_eq
  rw [hterm, hmeq, hce, allUnavailable_iff]
  constructor
  · intro hall i hi
    exact (unavail_iff_spec cfg inst hInv2 i hi).mp (hall i hi)
  · intro hall i hi
    exact (unavail_iff_spec cfg inst hInv2 i hi).mpr (hall i hi)

theorem terminated_iff_no_feasible_item_witness :
    cell (step sA1 1).state.internal_state 2 0 = 1 ∨
      ∃ r < cfgA.n_resources,
        consumedAmount (step sA1 1).state r +
          (instA.item_resource_demand.getD 2 []).getD r 0 >
          cfgA.initial_resources_capacity.getD r 0 :=
  (terminated_iff_no_feasible_item cfgA instA instWF_A reachA1 (by decide)
    (by with_unfolding_all decide) stepA2_ok).mp rfl 2 (by decide)

/-- C10: on every valid step, when `terminated` comes back `true` the
`ACTION_MASK` entry of the returned info is the all-`-1.0` sentinel vector,
not the true per-item mask; on a non-terminal step it is the stored mask,
whose entries are boolean-coded `0.0`/`1.0`. -/
theorem terminal_info_mask_sentinel (cfg : MkpConfig) (inst : MkpInstance)
    (hwf : InstWF cfg inst) {s : EnvState}
    (hr : Reachable cfg inst s false) {a : Nat} (ha : a < cfg.num_items)
    (hm : s.action_mask.getD a 0 = 0) {s' : EnvState} {obs : List Rat}
    {rw : Rat} {term trunc : Bool} {info : StepInfo}
    (h : step s a = .ok s' obs rw term trunc info) :
    (term = true → info.action_mask = List.replicate cfg.num_items (-1 : Rat)) ∧
    (term = false → info.action_mask = s'.action_mask ∧
      ∀ i < cfg.num_items,
        s'.action_mask.getD i 0 = 0 ∨ s'.action_mask.getD i 0 = 1) := by
  obtain ⟨hidx, hsel, hcr, hobs, hterm, htrunc, hT, hF⟩ := step_ok_inversion h
  have hce : s.cfg = cfg := (reachable_inv cfg inst hwf hr).cfg_eq
  constructor
  · intro ht
    obtain ⟨hs', hinfo⟩ := hT ht
    rw [hinfo, hce]
    rfl
  · intro hf
    obtain ⟨hs', hinfo⟩ := hF hf
    have hr2 := reachable_of_step cfg inst hr ha hm h
    rw [hf] at hr2
    have hInv2 := reachable_inv cfg inst hwf hr2
    refine ⟨by rw [hinfo, hs']; rfl, ?_⟩
    intro i hi
    have hmp := hInv2.mask_pure rfl i hi
    cases hu : unavailableItem cfg s'.internal_state i with
    | true =>
      rw [hu] at hmp
      simp only [if_true] at hmp
      exact Or.inr hmp
    | false =>
      rw [hu] at hmp
      simp only [Bool.false_eq_true, if_false] at hmp
      exact Or.inl hmp

theorem terminal_info_mask_sentinel_witness :
    (step sA1 1).theInfo.action_mask = List.replicate cfgA.num_items (-1 : Rat) :=
  (terminal_info_mask_sentinel cfgA instA instWF_A reachA1 (by decide)
    (by with_unfolding_all decide) stepA2_ok).1 rfl

theorem stepA1_ok : step sA0 0 = .ok (step sA0 0).state (step sA0 0).obsOf
    (step sA0 0).rewardValue false false (step sA0 0).theInfo := by
  with_unfolding_all decide

/-- C6 (counterexample): on the representable instance with `total_value =
0` (one item, value 0, demand 1, capacity 10), the item is unmasked after
reset, yet stepping on it does not return reward 0 — the float division
yields `nan` and the `assert reward < 1.0` in `compute_reward` fails. -/
theorem reward_zero_total_asserts_cex :
    sZ0.total_value = 0 ∧
    sZ0.action_mask.getD 0 0 = 0 ∧
    (step sZ0 0).isOk = false ∧
    (step sZ0 0).errOf = some StepError.assertRewardLt1 := by
  with_unfolding_all decide

/-- C6 (amended): every valid step that returns (in-range, unmasked,
data-model instance) has `total_value ≠ 0` — when `total_value = 0` the step
instead fails the `reward < 1.0` assertion — and its reward equals
`value[a] / total_value` and lies in `[0, 1)`. -/
theorem reward_formula_and_bounds (cfg : MkpConfig) (inst : MkpInstance)
    (hwf : InstWF cfg inst) {s : EnvState}
    (hr : Reachable cfg inst s false) {a : Nat} (ha : a < cfg.num_items)
    (_hm : s.action_mask.getD a 0 = 0) {s' : EnvState} {obs : List Rat}
    {rw : Rat} {term trunc : Bool} {info : StepInfo}
    (h : step s a = .ok s' obs rw term trunc info) :
    s.total_value ≠ 0 ∧
    rw = inst.item_values.getD a 0 / s.total_value ∧
    0 ≤ rw ∧ rw < 1 := by
  have hInv := reachable_inv cfg inst hwf hr
  obtain ⟨hidx, hsel, hcr, _, _, _, _, _⟩ := step_ok_inversion h
  have hval : cell s.internal_state a 1 = inst.item_values.getD a 0 :=
    hInv.unsel_val a ha hsel
  simp only [compute_reward] at hcr
  by_cases h0 : s.total_value = 0
  · rw [if_pos h0] at hcr
    exact absurd hcr (by simp)
  · rw [if_neg h0] at hcr
    by_cases h1 : cell s.internal_state a 1 / s.total_value < 1
    · rw [if_pos h1] at hcr
      have hrw : rw = cell s.internal_state a 1 / s.total_value := by
        cases hcr
        rfl
      have htot_nonneg : 0 ≤ s.total_value := by
        rw [hInv.total_eq]
        unfold totalValueOf
        apply List.sum_nonneg
        intro x hx
        obtain ⟨i, _, hix⟩ := List.mem_map.mp hx
        rw [← hix]
        exact getD_nonneg_of_forall _ hwf.1 i
      refine ⟨h0, by rw [hrw, hval], ?_, by rw [hrw]; exact h1⟩
      rw [hrw, hval]
      exact div_nonneg (getD_nonneg_of_forall _ hwf.1 a) htot_nonneg
    · rw [if_neg h1] at hcr
      exact absurd hcr (by simp)

theorem reward_formula_and_bounds_witness :
    sA0.total_value ≠ 0 ∧
    (step sA0 0).rewardValue = instA.item_values.getD 0 0 / sA0.total_value ∧
    0 ≤ (step sA0 0).rewardValue ∧ (step sA0 0).rewardValue < 1 :=
  reward_formula_and_bounds cfgA instA instWF_A reachA0 (by decide)
    (by with_unfolding_all decide) stepA1_ok

/-- C4 (counterexample): after selecting item 0 in scenario A, item 0 is
masked; calling `step 0` again fails (an `AssertionError`, not a distinct
`InvalidActionError`), and the episode state is NOT unchanged: the selection
history has grown and the cached reward was overwritten. -/
theorem step_masked_mutates_state_cex :
    sA1.action_mask.getD 0 0 = 1 ∧
    (step sA1 0).isOk = false ∧
    (step sA1 0).state.actions_selected ≠ sA1.actions_selected ∧
    (step sA1 0).state.reward ≠ sA1.reward := by
  with_unfolding_all decide

/-- C4 (amended): re-selecting an already-selected item `a` (its value cell
already zeroed, on an instance with positive total value) raises the "The
Same Item Selected" assertion — a single generic `AssertionError`, not an
`InvalidActionError` — and leaves `selected`, the matrix (so `consumed`) and
`value_allocated` unchanged, but the failed call has already appended `a` to
the selection history and overwritten the cached reward with 0. -/
theorem step_reselect_assert_and_mutation (s : EnvState) {a : Nat}
    (ha : a < s.cfg.num_items) (h1 : cell s.internal_state a 0 = 1)
    (h2 : cell s.internal_state a 1 = 0) (h3 : 0 < s.total_value) :
    step s a =
      .err { s with
              actions_selected := s.actions_selected ++ [a]
              reward := some 0 }
        .assertSameItemSelected := by
  have hcr : compute_reward s.total_value (cell s.internal_state a 1) =
      .ok 0 := by
    simp only [compute_reward, h2]
    rw [if_neg (ne_of_gt h3), zero_div, if_pos (by norm_num)]
  simp only [step]
  rw [if_neg (by omega)]
  simp only [hcr]
  rw [if_neg (by rw [h1]; norm_num)]

theorem step_reselect_assert_and_mutation_witness :
    step sA1 0 =
      .err { sA1 with
              actions_selected := sA1.actions_selected ++ [0]
              reward := some 0 }
        .assertSameItemSelected :=
  step_reselect_assert_and_mutation sA1 (by with_unfolding_all decide)
    (by with_unfolding_all decide) (by with_unfolding_all decide)
    (by with_unfolding_all decide)

theorem degDeg_all_unavailable :
    allUnavailable cfgDeg (resetOnce cfgDeg instDeg).internal_state = true := by
  with_unfolding_all decide

theorem reset_none_helper (cfg : MkpConfig) (gen : Nat → MkpInstance)
    (hdeg : ∀ k,
      allUnavailable cfg (resetOnce cfg (gen k)).internal_state = true) :
    ∀ fuel k, reset cfg gen k fuel = none := by
  intro fuel
  induction fuel with
  | zero => intro k; rfl
  | succ n ih =>
    intro k
    simp only [reset]
    rw [if_pos (hdeg k)]
    exact ih (k + 1)

/-- C5 (counterexample): on the degenerate static instance (demand 7 against
capacity 5) the initial mask marks every item unavailable, and `reset` never
returns: even with a recursion budget of one million attempts it is still
re-resetting; no `DegenerateInstanceError` exists anywhere in the interface
(`reset` either returns a state or recurses forever). -/
theorem reset_degenerate_unbounded_cex :
    allUnavailable cfgDeg (resetOnce cfgDeg (genDeg 0)).internal_state = true ∧
    reset cfgDeg genDeg 0 1000000 = none :=
  ⟨degDeg_all_unavailable,
   reset_none_helper cfgDeg genDeg (fun _ => degDeg_all_unavailable)
     1000000 0⟩

/-- C5 (amended): when every generated instance is degenerate (all items
unavailable at reset), `reset` retries by unbounded self-recursion: for every
recursion budget it exhausts the budget without ever returning, and no
`DegenerateInstanceError` is raised at any bound. -/
theorem reset_degenerate_never_returns (cfg : MkpConfig)
    (gen : Nat → MkpInstance)
    (hdeg : ∀ k,
      allUnavailable cfg (resetOnce cfg (gen k)).internal_state = true) :
    ∀ fuel k, reset cfg gen k fuel = none :=
  reset_none_helper cfg gen hdeg

theorem reset_degenerate_never_returns_witness :
    reset cfgDeg genDeg 0 7 = none :=
  reset_degenerate_never_returns cfgDeg genDeg
    (fun _ => degDeg_all_unavailable) 7 0

/-- C7: both terminal cases carry the same reason tag. In scenario B the
episode ends with every item selected ("all allocated"), in scenario A it
ends with item 2 still unselected ("no feasible item remains"); in both
cases the info carries `DoneReasonType.TYPE_SUCCESS_2` ("An Unavailable
Resource") — `TYPE_SUCCESS_1` ("All Items Allocated Successfully") is never
emitted, so the caller cannot tell the cases apart from the returned info. -/
theorem done_reason_indistinguishable :
    ((step sB1 1).terminatedFlag = true ∧
     cell (step sB1 1).state.internal_state 0 0 = 1 ∧
     cell (step sB1 1).state.internal_state 1 0 = 1 ∧
     (step sB1 1).doneReason = some DoneReasonType.TYPE_SUCCESS_2) ∧
    ((step sA1 1).terminatedFlag = true ∧
     cell (step sA1 1).state.internal_state 2 0 = 0 ∧
     (step sA1 1).doneReason = some DoneReasonType.TYPE_SUCCESS_2) := by
  with_unfolding_all decide

/-- C8 (counterexample): the malformed configuration `cfgBad` — capacity
`[0]`, inverted demand range `[7] > [5]`, inverted value range `9 > 3` —
is accepted silently by construction: no `ConfigError` (or any error) is
raised. -/
theorem init_accepts_bad_config_cex :
    initEnv cfgBad = .ok cfgBad ∧
    cfgBad.initial_resources_capacity.getD 0 0 ≤ 0 ∧
    cfgBad.highest_item_resource_demand.getD 0 0 <
      cfgBad.lowest_item_resource_demand.getD 0 0 ∧
    cfgBad.highest_item_value < cfgBad.lowest_item_value :=
  ⟨by with_unfolding_all rfl, by decide, by decide, by decide⟩

/-- C8 (amended): construction validates nothing of its own: whenever the
bound lists are nonempty (so the `max` on line 50 is defined) and the
observation-space bound is nonnegative, construction succeeds for every
configuration with `num_items > 0` — nonpositive capacities and
empty/inverted sampling ranges included — and `num_items = 0` fails only via
the generic `n > 0` assertion of the action space, not a `ConfigError`. -/
theorem init_validation_only_discrete (cfg : MkpConfig)
    (hne : ¬ (cfg.highest_item_resource_demand.length +
      cfg.initial_resources_capacity.length = 0))
    (_hbox : 0 ≤ max_state_value cfg) :
    initEnv cfg = if cfg.num_items = 0 then
      Except.error InitError.assertDiscretePositive else Except.ok cfg := by
  unfold initEnv
  rw [if_neg hne]

theorem init_validation_only_discrete_witness :
    initEnv cfgBad = if cfgBad.num_items = 0 then
      Except.error InitError.assertDiscretePositive else Except.ok cfgBad :=
  init_validation_only_discrete cfgBad (by decide)
    (by with_unfolding_all decide)

/-! ### Branch equations for `step` and purity of normalization -/

theorem step_eq_index_err (s : EnvState) (a : Nat)
    (h1 : s.cfg.num_items + 1 ≤ a) :
    step s a =
      .err { s with actions_selected := s.actions_selected ++ [a] }
        .indexError := by
  simp only [step]
  rw [if_pos h1]

theorem step_eq_reward_err (s : EnvState) (a : Nat)
    (h1 : ¬ (s.cfg.num_items + 1 ≤ a)) (e : StepError)
    (hcr : compute_reward s.total_value (cell s.internal_state a 1) =
      .error e) :
    step s a =
      .err { s with actions_selected := s.actions_selected ++ [a] } e := by
  simp only [step]
  rw [if_neg h1]
  simp only [hcr]

theorem step_eq_sel_err (s : EnvState) (a : Nat)
    (h1 : ¬ (s.cfg.num_items + 1 ≤ a)) (rw0 : Rat)
    (hcr : compute_reward s.total_value (cell s.internal_state a 1) =
      .ok rw0)
    (h2 : ¬ (cell s.internal_state a 0 = 0)) :
    step s a =
      .err { s with
              actions_selected := s.actions_selected ++ [a]
              reward := some rw0 }
        .assertSameItemSelected := by
  simp only [step]
  rw [if_neg h1]
  simp only [hcr]
  rw [if_neg h2]

theorem step_eq_res_err (s : EnvState) (a : Nat)
    (h1 : ¬ (s.cfg.num_items + 1 ≤ a)) (rw0 : Rat)
    (hcr : compute_reward s.total_value (cell s.internal_state a 1) =
      .ok rw0)
    (h2 : cell s.internal_state a 0 = 0)
    (h3 : ¬ (((List.range s.cfg.n_resources).all fun i =>
      decide (s.resources_allocated.getD i 0 +
        (resourcesStep s.cfg s.internal_state a).getD i 0 ≤
          s.cfg.initial_resources_capacity.getD i 0)) = true)) :
    step s a =
      .err { s with
              actions_selected := s.actions_selected ++ [a]
              reward := some rw0 }
        .assertResourceLimit := by
  simp only [step]
  rw [if_neg h1]
  simp only [hcr]
  rw [if_pos h2, if_neg h3]

theorem step_eq_terminal (s : EnvState) (a : Nat)
    (h1 : ¬ (s.cfg.num_items + 1 ≤ a)) (rw0 : Rat)
    (hcr : compute_reward s.total_value (cell s.internal_state a 1) =
      .ok rw0)
    (h2 : cell s.internal_state a 0 = 0)
    (h3 : ((List.range s.cfg.n_resources).all fun i =>
      decide (s.resources_allocated.getD i 0 +
        (resourcesStep s.cfg s.internal_state a).getD i 0 ≤
          s.cfg.initial_resources_capacity.getD i 0)) = true)
    (h4 : allUnavailable s.cfg (stepApply s a rw0).internal_state = true) :
    step s a =
      .ok (stepApply s a rw0) (observationOf (stepApply s a rw0)) rw0 true
        false
        (mkInfo (stepApply s a rw0) (some .TYPE_SUCCESS_2)
          (List.replicate s.cfg.num_items (-1 : Rat))) := by
  simp only [step]
  rw [if_neg h1]
  simp only [hcr]
  rw [if_pos h2, if_pos h3, if_pos h4]

theorem step_eq_nonterminal (s : EnvState) (a : Nat)
    (h1 : ¬ (s.cfg.num_items + 1 ≤ a)) (rw0 : Rat)
    (hcr : compute_reward s.total_value (cell s.internal_state a 1) =
      .ok rw0)
    (h2 : cell s.internal_state a 0 = 0)
    (h3 : ((List.range s.cfg.n_resources).all fun i =>
      decide (s.resources_allocated.getD i 0 +
        (resourcesStep s.cfg s.internal_state a).getD i 0 ≤
          s.cfg.initial_resources_capacity.getD i 0)) = true)
    (h4 : ¬ (allUnavailable s.cfg (stepApply s a rw0).internal_state = true)) :
    step s a =
      .ok (stepMasked s a rw0) (observationOf (stepApply s a rw0)) rw0 false
        false
        (mkInfo (stepMasked s a rw0) none (stepMasked s a rw0).action_mask) := by
  simp only [step]
  rw [if_neg h1]
  simp only [hcr]
  rw [if_pos h2, if_pos h3, if_neg h4]

theorem step_setNorm_state (s : EnvState) (a : Nat) (b : Bool) :
    (step (setNorm s b) a).state = setNorm ((step s a).state) b := by
  by_cases h1 : s.cfg.num_items + 1 ≤ a
  · rw [step_eq_index_err s a h1, step_eq_index_err (setNorm s b) a h1]
    rfl
  · cases hcr : compute_reward s.total_value (cell s.internal_state a 1) with
    | error e =>
      rw [step_eq_reward_err s a h1 e hcr,
        step_eq_reward_err (setNorm s b) a h1 e hcr]
      rfl
    | ok rw0 =>
      by_cases h2 : cell s.internal_state a 0 = 0
      · by_cases h3 : ((List.range s.cfg.n_resources).all fun i =>
            decide (s.resources_allocated.getD i 0 +
              (resourcesStep s.cfg s.internal_state a).getD i 0 ≤
                s.cfg.initial_resources_capacity.getD i 0)) = true
        · by_cases h4 :
              allUnavailable s.cfg (stepApply s a rw0).internal_state = true
          · rw [step_eq_terminal s a h1 rw0 hcr h2 h3 h4,
              step_eq_terminal (setNorm s b) a h1 rw0 hcr h2 h3 h4]
            rfl
          · rw [step_eq_nonterminal s a h1 rw0 hcr h2 h3 h4,
              step_eq_nonterminal (setNorm s b) a h1 rw0 hcr h2 h3 h4]
            rfl
        · rw [step_eq_res_err s a h1 rw0 hcr h2 h3,
            step_eq_res_err (setNorm s b) a h1 rw0 hcr h2 h3]
          rfl
      · rw [step_eq_sel_err s a h1 rw0 hcr h2,
          step_eq_sel_err (setNorm s b) a h1 rw0 hcr h2]
        rfl

/-! ### Cells of the normalized matrix -/

theorem getD_map_of_lt {α β : Type} (g : α → β) (l : List α) (i : Nat)
    (d : α) (d2 : β) (hi : i < l.length) :
    (l.map g).getD i d2 = g (l.getD i d) := by
  rw [List.getD_eq_getElem (l.map g) d2 (by simpa using hi),
    List.getElem_map, List.getD_eq_getElem l d hi]

theorem getD_enum_of_lt {α : Type} (l : List α) (j : Nat) (d : α)
    (dp : Nat × α) (hj : j < l.length) :
    l.enum.getD j dp = (j, l.getD j d) := by
  rw [List.getD_eq_getElem l.enum dp (by simpa using hj),
    List.getElem_enum, List.getD_eq_getElem l d hj]

theorem cell_normalize (cfg : MkpConfig) (m : List (List Rat)) (i j : Nat)
    (hi : i < m.length) (hj : j < (m.getD i []).length) :
    cell (normalize_internal_state cfg m) i j =
      if j = 1 then cell m i j / (cfg.highest_item_value : Rat)
      else if 2 ≤ j ∧ j < 2 + cfg.n_resources then
        cell m i j / cfg.initial_resources_capacity.getD (j - 2) 0
      else cell m i j := by
  unfold normalize_internal_state cell
  rw [getD_map_of_lt _ m i [] [] hi,
    getD_map_of_lt _ (m.getD i []).enum j (0, 0) 0 (by simpa using hj),
    getD_enum_of_lt (m.getD i []) j 0 (0, 0) hj]

/-- Range of the normalization: whenever every matrix field is within its
data-model bound (flags boolean, value cells at most `highest_item_value`,
resource cells at most the matching capacity), every normalized field lies
in `[0, 1]`. -/
theorem normalize_bounds (cfg : MkpConfig) (m : List (List Rat))
    (hhv : 0 < (cfg.highest_item_value : Rat))
    (hcap : ∀ r < cfg.n_resources,
      0 < cfg.initial_resources_capacity.getD r 0)
    (hrows : ∀ i < m.length, (m.getD i []).length = 2 + cfg.n_resources)
    (hb : ∀ i < m.length,
      (cell m i 0 = 0 ∨ cell m i 0 = 1) ∧
      (0 ≤ cell m i 1 ∧ cell m i 1 ≤ (cfg.highest_item_value : Rat)) ∧
      (∀ r < cfg.n_resources, 0 ≤ cell m i (2 + r) ∧
        cell m i (2 + r) ≤ cfg.initial_resources_capacity.getD r 0)) :
    ∀ i < m.length, ∀ j < 2 + cfg.n_resources,
      0 ≤ cell (normalize_internal_state cfg m) i j ∧
      cell (normalize_internal_state cfg m) i j ≤ 1 := by
  intro i hi j hj
  rw [cell_normalize cfg m i j hi (by rw [hrows i hi]; exact hj)]
  obtain ⟨hflag, ⟨hv0, hv1⟩, hres⟩ := hb i hi
  by_cases hj1 : j = 1
  · subst hj1
    rw [if_pos rfl]
    exact ⟨div_nonneg hv0 (le_of_lt hhv), (div_le_one hhv).mpr hv1⟩
  · rw [if_neg hj1]
    by_cases hj2 : 2 ≤ j ∧ j < 2 + cfg.n_resources
    · rw [if_pos hj2]
      have hrr : j - 2 < cfg.n_resources := by omega
      have hjj : 2 + (j - 2) = j := by omega
      have hbound := hres (j - 2) hrr
      rw [hjj] at hbound
      have hcp := hcap (j - 2) hrr
      exact ⟨div_nonneg hbound.1 (le_of_lt hcp), (div_le_one hcp).mpr hbound.2⟩
    · rw [if_neg hj2]
      have hj0 : j = 0 := by omega
      subst hj0
      rcases hflag with hf | hf <;> rw [hf] <;> norm_num

/-- C9 (counterexample): with normalization on, after selecting both items
of the `cfgN` instance (values 3 and 3, `highest_item_value = 4`) the
terminal observation's aggregate `value_allocated` field is `6 / 4 = 3/2`,
outside `[0, 1]` — the value column is divided by the per-item maximum, not
by the total value. -/
theorem normalized_obs_exceeds_one_cex :
    cfgN.state_normalization = true ∧
    (step sN1 1).isOk = true ∧
    (step sN1 1).obsOf.getD 7 0 = 3 / 2 ∧
    ¬ ((step sN1 1).obsOf.getD 7 0 ≤ 1) := by
  with_unfolding_all decide

/-- C9 (amended): observation normalization is a pure, side-effect-free
transform — toggling the normalization flag changes nothing of the stored
episode state evolved by `step` — and it maps every matrix field into
`[0, 1]` exactly when each field is within its data-model bound (value cells
at most `highest_item_value`); the aggregate row's `value_allocated` cell is
divided by the per-item `highest_item_value` rather than `total_value` and
so can leave `[0, 1]`, as the counterexample shows. -/
theorem normalize_pure_and_bounded :
    (∀ (s : EnvState) (a : Nat) (b : Bool),
      (step (setNorm s b) a).state = setNorm ((step s a).state) b) ∧
    (∀ (cfg : MkpConfig) (m : List (List Rat)),
      0 < (cfg.highest_item_value : Rat) →
      (∀ r < cfg.n_resources,
        0 < cfg.initial_resources_capacity.getD r 0) →
      (∀ i < m.length, (m.getD i []).length = 2 + cfg.n_resources) →
      (∀ i < m.length,
        (cell m i 0 = 0 ∨ cell m i 0 = 1) ∧
        (0 ≤ cell m i 1 ∧ cell m i 1 ≤ (cfg.highest_item_value : Rat)) ∧
        (∀ r < cfg.n_resources, 0 ≤ cell m i (2 + r) ∧
          cell m i (2 + r) ≤ cfg.initial_resources_capacity.getD r 0)) →
      ∀ i < m.length, ∀ j < 2 + cfg.n_resources,
        0 ≤ cell (normalize_internal_state cfg m) i j ∧
        cell (normalize_internal_state cfg m) i j ≤ 1) :=
  ⟨step_setNorm_state, normalize_bounds⟩

theorem normalize_pure_and_bounded_witness :
    ((step (setNorm sA0 true) 0).state = setNorm ((step sA0 0).state) true) ∧
    (0 ≤ cell (normalize_internal_state cfgN sN0.internal_state) 2 1 ∧
      cell (normalize_internal_state cfgN sN0.internal_state) 2 1 ≤ 1) :=
  ⟨normalize_pure_and_bounded.1 sA0 0 true,
   normalize_pure_and_bounded.2 cfgN sN0.internal_state
     (by with_unfolding_all decide)
     (by with_unfolding_all decide) (by with_unfolding_all decide)
     (by with_unfolding_all decide) 2 (by with_unfolding_all decide) 1
     (by decide)⟩

end MkpEnv
